import Mathlib

/-
Verification of the move-legality engine of the Django chess application.

The board store is a per-owner set of (location, value) records; we embed one
owner's store as an association list from the square string to the occupant
string (an HTML entity such as "&#9817;", or "&nbsp;" for an explicitly empty
square).  The functions below are direct translations of
`app1/models.py` (square_to_indices, get_piece_at, is_path_clear,
validate_move, move_piece, reset_game) and of the move-handling branch of
`chess_view` together with `newGame` from `app1/views.py`.
-/

namespace Chess

/-- One owner's board: list of (location, value) records, in creation order.
The database enforces at most one record per location. -/
abbrev Bd := List (String × String)

/-- Decidable equality for parse results, so that concrete parses can be
settled by evaluation. -/
instance instDecEqParse : DecidableEq (Except String (Nat × Nat))
  | Except.ok a, Except.ok b =>
    if h : a = b then isTrue (congrArg Except.ok h)
    else isFalse (fun hh => h (Except.ok.inj hh))
  | Except.error a, Except.error b =>
    if h : a = b then isTrue (congrArg Except.error h)
    else isFalse (fun hh => h (Except.error.inj hh))
  | Except.ok _, Except.error _ => isFalse (fun hh => Except.noConfusion hh)
  | Except.error _, Except.ok _ => isFalse (fun hh => Except.noConfusion hh)

def nbsp : String := "&nbsp;"

def emptyMsg : String := ""

/-- The apostrophe character, as a string. -/
def apos : String := String.mk [Char.ofNat 39]

-- Piece entity codes (the keys of PIECE_MAPPING in models.py).
def wPawnE : String := "&#9817;"

def wRookE : String := "&#9814;"

def wKnightE : String := "&#9816;"

def wBishopE : String := "&#9815;"

def wQueenE : String := "&#9813;"

def wKingE : String := "&#9812;"

def bPawnE : String := "&#9823;"

def bRookE : String := "&#9820;"

def bKnightE : String := "&#9822;"

def bBishopE : String := "&#9821;"

def bQueenE : String := "&#9819;"

def bKingE : String := "&#9818;"

-- Piece kinds and colors (the values of PIECE_MAPPING).
def pawnK : String := "pawn"

def rookK : String := "rook"

def knightK : String := "knight"

def bishopK : String := "bishop"

def queenK : String := "queen"

def kingK : String := "king"

def whiteC : String := "white"

def blackC : String := "black"

-- Error and status messages, verbatim from the source.
def errNotTwoChars : String := "Square must be a 2-character string, e.g. e2."

def errRankNotNum : String := "Rank must be a number between 1 and 8."

def errOutOfBounds : String := "Square out of bounds."

def msgUnknownPiece : String := "Unknown piece type."

def msgOwnPiece : String := "Cannot capture your own piece."

def msgPawnFwd : String := "Pawn cannot move forward into an occupied square."

def msgPawnDbl : String := "Path is not clear for pawn" ++ apos ++ "s double move."

def msgPawnDiag : String := "Pawn diagonal move must capture an enemy piece."

def msgIllegalPawn : String := "Illegal pawn move."

def msgIllegalKnight : String := "Illegal knight move."

def msgIllegalBishop : String := "Illegal bishop move or path is blocked."

def msgIllegalRook : String := "Illegal rook move or path is blocked."

def msgIllegalQueen : String := "Illegal queen move or path is blocked."

def msgIllegalKing : String := "Illegal king move."

def msgNotRecognized : String := "Move not recognized."

def msgSrcNotFound : String := "Source square not found."

def msgNoPieceAtSrc : String := "No piece at source."

def msgMoveCompleted : String := "Move completed."

def msgNoPieceSquare : String := "No piece at the source square."

def msgUnrecognized : String := "Unrecognized piece."

/-- The wrong-turn message built in chess_view: `It is {turn}'s turn.` -/
def wrongTurnMsg (turn : String) : String := "It is " ++ turn ++ apos ++ "s turn."

/-- Embeds Python `v.strip()`: drop whitespace from both ends (the values
this program strips are ASCII). -/
def pyStrip (s : String) : String :=
  String.mk
    (((s.toList.dropWhile Char.isWhitespace).reverse.dropWhile
      Char.isWhitespace).reverse)

/-- Embeds Python `v.strip() in ("", "&nbsp;")` (emptiness test used on
occupants read back from the store). -/
def isBlankVal (v : String) : Bool :=
  pyStrip v == emptyMsg || pyStrip v == nbsp

/-- Embeds Python `v.strip() == "" or v == "&nbsp;"` (the source-square
emptiness test used in chess_view and move_piece). -/
def isBlankSrcVal (v : String) : Bool :=
  pyStrip v == emptyMsg || v == nbsp

/-- get_piece_at: value of the record at `square`, or the empty sentinel when
no record exists. -/
def get_piece_at (b : Bd) (square : String) : String :=
  match b.find? (fun r => r.1 == square) with
  | some r => r.2
  | none => nbsp

/-- ASCII lower-casing of a character, embedding Python str.lower on the
single file character (all inputs reaching it in this program are ASCII). -/
def lowerChar (c : Char) : Char :=
  if 65 ≤ c.toNat ∧ c.toNat ≤ 90 then Char.ofNat (c.toNat + 32) else c

/-- square_to_indices: "e2" ↦ (row, col) with row 0 = rank 8, row 7 = rank 1.
Raised ValueErrors are embedded as `Except.error` with the source message. -/
def square_to_indices (square : String) : Except String (Nat × Nat) :=
  match square.toList with
  | [f0, r0] =>
    let file := lowerChar f0
    let col : Int := (file.toNat : Int) - 97
    if r0.isDigit then
      let row : Int := 8 - ((r0.toNat : Int) - 48)
      if 0 ≤ row ∧ row < 8 ∧ 0 ≤ col ∧ col < 8 then
        Except.ok (row.toNat, col.toNat)
      else Except.error errOutOfBounds
    else Except.error errRankNotNum
  | _ => Except.error errNotTwoChars

/-- PIECE_MAPPING as a lookup: entity code ↦ (kind, color). -/
def lookupPiece (v : String) : Option (String × String) :=
  if v == wPawnE then some (pawnK, whiteC)
  else if v == wRookE then some (rookK, whiteC)
  else if v == wKnightE then some (knightK, whiteC)
  else if v == wBishopE then some (bishopK, whiteC)
  else if v == wQueenE then some (queenK, whiteC)
  else if v == wKingE then some (kingK, whiteC)
  else if v == bPawnE then some (pawnK, blackC)
  else if v == bRookE then some (rookK, blackC)
  else if v == bKnightE then some (knightK, blackC)
  else if v == bBishopE then some (bishopK, blackC)
  else if v == bQueenE then some (queenK, blackC)
  else if v == bKingE then some (kingK, blackC)
  else none

/-- Builds the square string `f"{chr(c + ord('a'))}{8 - r}"` used when the
source reconstructs a square from indices. -/
def idxSquare (r c : Int) : String :=
  String.mk [Char.ofNat (c + 97).toNat] ++ toString (8 - r)

/-- The same square as `idxSquare r c` but with the file letter written in
upper case (test input for the case-handling theorem). -/
def idxSquareUpper (r c : Int) : String :=
  String.mk [Char.ofNat (c + 65).toNat] ++ toString (8 - r)

/-- is_path_clear: every square strictly between source and destination is
empty.  Python floor division `//` is embedded as Int.fdiv. -/
def is_path_clear (b : Bd) (source destination : String) : Bool :=
  match square_to_indices source, square_to_indices destination with
  | Except.ok (src_row, src_col), Except.ok (dst_row, dst_col) =>
    let delta_row : Int := (dst_row : Int) - (src_row : Int)
    let delta_col : Int := (dst_col : Int) - (src_col : Int)
    let steps : Nat := max delta_row.natAbs delta_col.natAbs
    if steps ≤ 1 then true
    else
      let step_row : Int := Int.fdiv delta_row (steps : Int)
      let step_col : Int := Int.fdiv delta_col (steps : Int)
      (List.range (steps - 1)).all (fun k =>
        let step : Int := (k : Int) + 1
        isBlankVal (get_piece_at b
          (idxSquare ((src_row : Int) + step * step_row)
                     ((src_col : Int) + step * step_col))))
  | _, _ => true

/-- The same-color-destination test inlined at the top of validate_move:
destination occupied, its occupant a known piece of the mover's color. -/
def sameColorDest (b : Bd) (destination piece_color : String) : Bool :=
  let dest_piece := get_piece_at b destination
  !(isBlankVal dest_piece) &&
    (match lookupPiece dest_piece with
     | some q => q.2 == piece_color
     | none => false)

/-- The piece-shape dispatch of validate_move (the if/elif chain on the
piece type), split out under its own name; `d_row`, `d_col` and the pawn
constants are computed exactly as in the source. -/
def shapeDispatch (b : Bd) (source destination : String)
    (src_row src_col dst_row dst_col : Nat)
    (piece_type piece_color : String) : Bool × String :=
  let dest_piece := get_piece_at b destination
  let d_row : Int := (dst_row : Int) - (src_row : Int)
  let d_col : Int := (dst_col : Int) - (src_col : Int)
  if piece_type == pawnK then
    let direction : Int := if piece_color == whiteC then -1 else 1
    let start_row : Nat := if piece_color == whiteC then 6 else 1
    if d_col == 0 && d_row == direction then
      if isBlankVal dest_piece then (true, emptyMsg)
      else (false, msgPawnFwd)
    else if d_col == 0 && d_row == 2 * direction &&
        src_row == start_row then
      if isBlankVal (get_piece_at b
            (idxSquare ((src_row : Int) + direction) (src_col : Int))) &&
          isBlankVal dest_piece then (true, emptyMsg)
      else (false, msgPawnDbl)
    else if d_col.natAbs == 1 && d_row == direction then
      if !(isBlankVal dest_piece) then (true, emptyMsg)
      else (false, msgPawnDiag)
    else (false, msgIllegalPawn)
  else if piece_type == knightK then
    if (d_row.natAbs == 1 && d_col.natAbs == 2) ||
        (d_row.natAbs == 2 && d_col.natAbs == 1) then (true, emptyMsg)
    else (false, msgIllegalKnight)
  else if piece_type == bishopK then
    if d_row.natAbs == d_col.natAbs &&
        is_path_clear b source destination then (true, emptyMsg)
    else (false, msgIllegalBishop)
  else if piece_type == rookK then
    if (d_row == 0 || d_col == 0) &&
        is_path_clear b source destination then (true, emptyMsg)
    else (false, msgIllegalRook)
  else if piece_type == queenK then
    if (d_row.natAbs == d_col.natAbs || d_row == 0 || d_col == 0) &&
        is_path_clear b source destination then (true, emptyMsg)
    else (false, msgIllegalQueen)
  else if piece_type == kingK then
    if max d_row.natAbs d_col.natAbs == 1 then (true, emptyMsg)
    else (false, msgIllegalKing)
  else (false, msgNotRecognized)

/-- validate_move: (legal?, error message) for moving `piece` from `source`
to `destination` on board `b`. -/
def validate_move (b : Bd) (source destination piece : String) :
    Bool × String :=
  match square_to_indices source with
  | Except.error e => (false, e)
  | Except.ok (src_row, src_col) =>
    match square_to_indices destination with
    | Except.error e => (false, e)
    | Except.ok (dst_row, dst_col) =>
      match lookupPiece piece with
      | none => (false, msgUnknownPiece)
      | some pk =>
        if sameColorDest b destination pk.2 then (false, msgOwnPiece)
        else shapeDispatch b source destination
          src_row src_col dst_row dst_col pk.1 pk.2

/-- move_piece: validates and then performs the move.  Returns
(success, message, resulting board).  The mutation deletes any record at the
destination, blanks the source record, then creates the destination record —
exactly the write sequence of the source, which runs only after validation. -/
def move_piece (b : Bd) (source destination : String) :
    Bool × String × Bd :=
  match b.find? (fun r => r.1 == source) with
  | none => (false, msgSrcNotFound, b)
  | some record_src =>
    if isBlankSrcVal record_src.2 then (false, msgNoPieceAtSrc, b)
    else
      match validate_move b source destination record_src.2 with
      | (true, _) =>
        (true, msgMoveCompleted,
          (b.filter (fun r => !(r.1 == destination))).map
              (fun r => if r.1 == source then (r.1, nbsp) else r) ++
            [(destination, record_src.2)])
      | (false, message) => (false, message, b)

/-- Result of a move request as the chess_view handler computes it. -/
structure MoveOutcome where
  accepted : Bool
  message : String
  board : Bd
  new_turn : String
deriving DecidableEq, Repr

/-- Turn flip performed by chess_view after a successful move. -/
def flipTurn (turn : String) : String :=
  if turn == whiteC then blackC else whiteC

/-- The move-handling branch of chess_view: source-emptiness check, then
piece-known check, then wrong-turn check, then move_piece; the session turn
flips only on success. -/
def apply_move (b : Bd) (source destination turn : String) : MoveOutcome :=
  if isBlankSrcVal (get_piece_at b source) then
    ⟨false, msgNoPieceSquare, b, turn⟩
  else
    match lookupPiece (get_piece_at b source) with
    | some pk =>
      if pk.2 != turn then ⟨false, wrongTurnMsg turn, b, turn⟩
      else
        match move_piece b source destination with
        | (true, m, b2) => ⟨true, m, b2, flipTurn turn⟩
        | (false, m, b2) => ⟨false, m, b2, turn⟩
    | none => ⟨false, msgUnrecognized, b, turn⟩

-- Rank-string constants used when building the initial layouts.
def rk1 : String := "1"

def rk2 : String := "2"

def rk3 : String := "3"

def rk4 : String := "4"

def rk5 : String := "5"

def rk6 : String := "6"

def rk7 : String := "7"

def rk8 : String := "8"

def filesStr : String := "abcdefgh"

/-- Records for one rank: locations `a<rank>` .. `h<rank>` zipped with the
given pieces, in file order (the enumerate loop of the source). -/
def rankRecs (rank : String) (pieces : List String) : Bd :=
  (List.zip filesStr.toList pieces).map
    (fun fp => (String.mk [fp.1] ++ rank, fp.2))

def backRankWhite : List String :=
  [wRookE, wKnightE, wBishopE, wQueenE, wKingE, wBishopE, wKnightE, wRookE]

def backRankBlack : List String :=
  [bRookE, bKnightE, bBishopE, bQueenE, bKingE, bBishopE, bKnightE, bRookE]

def blankRank : List String := List.replicate 8 nbsp

/-- newGame (views.py): deletes every record for the owner, then creates the
64 records of its initial_board dict in insertion order, ranks 8 down to 1,
white back rank on rank 1 and black back rank on rank 8. -/
def newGameBoard : Bd :=
  rankRecs rk8 backRankBlack ++ rankRecs rk7 (List.replicate 8 bPawnE) ++
  rankRecs rk6 blankRank ++ rankRecs rk5 blankRank ++
  rankRecs rk4 blankRank ++ rankRecs rk3 blankRank ++
  rankRecs rk2 (List.replicate 8 wPawnE) ++ rankRecs rk1 backRankWhite

def newGame (_b : Bd) : Bd := newGameBoard

/-- Board.reset_game (models.py): deletes every record for the owner, then
creates the 64 records of its initial_board dict in insertion order, ranks 1
up to 8.  Note the dict literal assigns the black back rank entities to rank
"1", black pawns to "2", white pawns to "7" and the white back rank to "8". -/
def resetGameBoard : Bd :=
  rankRecs rk1 backRankBlack ++ rankRecs rk2 (List.replicate 8 bPawnE) ++
  rankRecs rk3 blankRank ++ rankRecs rk4 blankRank ++
  rankRecs rk5 blankRank ++ rankRecs rk6 blankRank ++
  rankRecs rk7 (List.replicate 8 wPawnE) ++ rankRecs rk8 backRankWhite

def reset_game (_b : Bd) : Bd := resetGameBoard

/-- Modelled from the spec: the canonical starting layout described in the
specification — white back rank on rank 1 (row 7), white pawns on rank 2
(row 6), ranks 3–6 empty, black pawns on rank 7 (row 1), black back rank on
rank 8 (row 0). -/
def specCanonicalLayout (bd : Bd) : Bool :=
  (List.range 8).all (fun c =>
    (get_piece_at bd (idxSquare 7 (c : Int)) == backRankWhite.getD c nbsp) &&
    (get_piece_at bd (idxSquare 6 (c : Int)) == wPawnE) &&
    isBlankVal (get_piece_at bd (idxSquare 5 (c : Int))) &&
    isBlankVal (get_piece_at bd (idxSquare 4 (c : Int))) &&
    isBlankVal (get_piece_at bd (idxSquare 3 (c : Int))) &&
    isBlankVal (get_piece_at bd (idxSquare 2 (c : Int))) &&
    (get_piece_at bd (idxSquare 1 (c : Int)) == bPawnE) &&
    (get_piece_at bd (idxSquare 0 (c : Int)) == backRankBlack.getD c nbsp))

-- Concrete squares used in witnesses and counterexamples.
def sqA1 : String := String.mk ['a', '1']

def sqA2 : String := String.mk ['a', '2']

def sqA8 : String := String.mk ['a', '8']

def sqE2 : String := String.mk ['e', '2']

def sqE3 : String := String.mk ['e', '3']

def sqE4 : String := String.mk ['e', '4']

def sqE5 : String := String.mk ['e', '5']

def sqD3 : String := String.mk ['d', '3']

def sqE2U : String := String.mk ['E', '2']

/-! Facts about the piece table, the store and the writer. -/

lemma lookupPiece_cases (v pt pc : String)
    (h : lookupPiece v = some (pt, pc)) :
    (v = wPawnE ∧ pt = pawnK ∧ pc = whiteC) ∨
    (v = wRookE ∧ pt = rookK ∧ pc = whiteC) ∨
    (v = wKnightE ∧ pt = knightK ∧ pc = whiteC) ∨
    (v = wBishopE ∧ pt = bishopK ∧ pc = whiteC) ∨
    (v = wQueenE ∧ pt = queenK ∧ pc = whiteC) ∨
    (v = wKingE ∧ pt = kingK ∧ pc = whiteC) ∨
    (v = bPawnE ∧ pt = pawnK ∧ pc = blackC) ∨
    (v = bRookE ∧ pt = rookK ∧ pc = blackC) ∨
    (v = bKnightE ∧ pt = knightK ∧ pc = blackC) ∨
    (v = bBishopE ∧ pt = bishopK ∧ pc = blackC) ∨
    (v = bQueenE ∧ pt = queenK ∧ pc = blackC) ∨
    (v = bKingE ∧ pt = kingK ∧ pc = blackC) := by
  unfold lookupPiece at h
  by_cases h1 : (v == wPawnE) = true
  · rw [if_pos h1] at h
    injection h with hp
    injection hp with hpt hpc
    exact (Or.inl ⟨eq_of_beq h1, hpt.symm, hpc.symm⟩)
  · rw [if_neg h1] at h
    by_cases h2 : (v == wRookE) = true
    · rw [if_pos h2] at h
      injection h with hp
      injection hp with hpt hpc
      exact (Or.inr (Or.inl ⟨eq_of_beq h2, hpt.symm, hpc.symm⟩))
    · rw [if_neg h2] at h
      by_cases h3 : (v == wKnightE) = true
      · rw [if_pos h3] at h
        injection h with hp
        injection hp with hpt hpc
        exact (Or.inr (Or.inr (Or.inl ⟨eq_of_beq h3, hpt.symm, hpc.symm⟩)))
      · rw [if_neg h3] at h
        by_cases h4 : (v == wBishopE) = true
        · rw [if_pos h4] at h
          injection h with hp
          injection hp with hpt hpc
          exact (Or.inr (Or.inr (Or.inr (Or.inl ⟨eq_of_beq h4, hpt.symm, hpc.symm⟩))))
        · rw [if_neg h4] at h
          by_cases h5 : (v == wQueenE) = true
          · rw [if_pos h5] at h
            injection h with hp
            injection hp with hpt hpc
            exact (Or.inr (Or.inr (Or.inr (Or.inr (Or.inl ⟨eq_of_beq h5, hpt.symm, hpc.symm⟩)))))
          · rw [if_neg h5] at h
            by_cases h6 : (v == wKingE) = true
            · rw [if_pos h6] at h
              injection h with hp
              injection hp with hpt hpc
              exact (Or.inr (Or.inr (Or.inr (Or.inr (Or.inr (Or.inl ⟨eq_of_beq h6, hpt.symm, hpc.symm⟩))))))
            · rw [if_neg h6] at h
              by_cases h7 : (v == bPawnE) = true
              · rw [if_pos h7] at h
                injection h with hp
                injection hp with hpt hpc
                exact (Or.inr (Or.inr (Or.inr (Or.inr (Or.inr (Or.inr (Or.inl ⟨eq_of_beq h7, hpt.symm, hpc.symm⟩)))))))
              · rw [if_neg h7] at h
                by_cases h8 : (v == bRookE) = true
                · rw [if_pos h8] at h
                  injection h with hp
                  injection hp with hpt hpc
                  exact (Or.inr (Or.inr (Or.inr (Or.inr (Or.inr (Or.inr (Or.inr (Or.inl ⟨eq_of_beq h8, hpt.symm, hpc.symm⟩))))))))
                · rw [if_neg h8] at h
                  by_cases h9 : (v == bKnightE) = true
                  · rw [if_pos h9] at h
                    injection h with hp
                    injection hp with hpt hpc
                    exact (Or.inr (Or.inr (Or.inr (Or.inr (Or.inr (Or.inr (Or.inr (Or.inr (Or.inl ⟨eq_of_beq h9, hpt.symm, hpc.symm⟩)))))))))
                  · rw [if_neg h9] at h
                    by_cases h10 : (v == bBishopE) = true
                    · rw [if_pos h10] at h
                      injection h with hp
                      injection hp with hpt hpc
                      exact (Or.inr (Or.inr (Or.inr (Or.inr (Or.inr (Or.inr (Or.inr (Or.inr (Or.inr (Or.inl ⟨eq_of_beq h10, hpt.symm, hpc.symm⟩))))))))))
                    · rw [if_neg h10] at h
                      by_cases h11 : (v == bQueenE) = true
                      · rw [if_pos h11] at h
                        injection h with hp
                        injection hp with hpt hpc
                        exact (Or.inr (Or.inr (Or.inr (Or.inr (Or.inr (Or.inr (Or.inr (Or.inr (Or.inr (Or.inr (Or.inl ⟨eq_of_beq h11, hpt.symm, hpc.symm⟩)))))))))))
                      · rw [if_neg h11] at h
                        by_cases h12 : (v == bKingE) = true
                        · rw [if_pos h12] at h
                          injection h with hp
                          injection hp with hpt hpc
                          exact (Or.inr (Or.inr (Or.inr (Or.inr (Or.inr (Or.inr (Or.inr (Or.inr (Or.inr (Or.inr (Or.inr ⟨eq_of_beq h12, hpt.symm, hpc.symm⟩)))))))))))
                        · rw [if_neg h12] at h
                          exact Option.noConfusion h

lemma lookup_color (v pt pc : String) (h : lookupPiece v = some (pt, pc)) :
    pc = whiteC ∨ pc = blackC := by
  rcases lookupPiece_cases v pt pc h with
    h'|h'|h'|h'|h'|h'|h'|h'|h'|h'|h'|h' <;>
    first
      | exact Or.inl h'.2.2
      | exact Or.inr h'.2.2

lemma lookup_not_blankSrc (v pt pc : String)
    (h : lookupPiece v = some (pt, pc)) : isBlankSrcVal v = false := by
  rcases lookupPiece_cases v pt pc h with
    h'|h'|h'|h'|h'|h'|h'|h'|h'|h'|h'|h' <;> rw [h'.1] <;> decide

lemma lookup_not_blank (v pt pc : String)
    (h : lookupPiece v = some (pt, pc)) : isBlankVal v = false := by
  rcases lookupPiece_cases v pt pc h with
    h'|h'|h'|h'|h'|h'|h'|h'|h'|h'|h'|h' <;> rw [h'.1] <;> decide

lemma lookup_nbsp : lookupPiece nbsp = none := by decide

lemma find_of_lookup (b : Bd) (s pt pc : String)
    (h : lookupPiece (get_piece_at b s) = some (pt, pc)) :
    ∃ rec, b.find? (fun r => r.1 == s) = some rec ∧
      rec.2 = get_piece_at b s := by
  cases hf : b.find? (fun r => r.1 == s) with
  | none =>
    exfalso
    unfold get_piece_at at h
    rw [hf] at h
    rw [lookup_nbsp] at h
    exact Option.noConfusion h
  | some rec =>
    refine ⟨rec, rfl, ?_⟩
    unfold get_piece_at
    rw [hf]

lemma move_piece_false_board (b : Bd) (s d m : String) (b2 : Bd)
    (h : move_piece b s d = (false, m, b2)) : b2 = b := by
  unfold move_piece at h
  split at h
  · simp only [Prod.mk.injEq] at h
    exact h.2.2.symm
  · split at h
    · simp only [Prod.mk.injEq] at h
      exact h.2.2.symm
    · split at h
      · simp only [Prod.mk.injEq] at h
        exact absurd h.1 (by simp)
      · simp only [Prod.mk.injEq] at h
        exact h.2.2.symm

/-- Claim C3: every rejection (malformed square, empty source, wrong turn,
own-piece capture, shape or path violation) leaves every square and the turn
exactly as they were; the board is written only after validation passes. -/
theorem chess_C3 : ∀ (b : Bd) (s d t : String),
    (apply_move b s d t).accepted = false →
    (apply_move b s d t).board = b ∧ (apply_move b s d t).new_turn = t ∧
      ∀ q : String,
        get_piece_at ((apply_move b s d t).board) q = get_piece_at b q := by
  intro b s d t
  unfold apply_move
  split
  · intro _
    exact ⟨rfl, rfl, fun q => rfl⟩
  · split
    · split
      · intro _
        exact ⟨rfl, rfl, fun q => rfl⟩
      · split
        · intro hacc
          exact absurd hacc (by simp)
        · rename_i m b2 hmp
          intro _
          have hb : b2 = b := move_piece_false_board b s d m b2 hmp
          exact ⟨hb, rfl, fun q => by rw [hb]⟩
    · intro _
      exact ⟨rfl, rfl, fun q => rfl⟩

/-- Closed witness for C3: a rejected move on a concrete board leaves the
board and turn unchanged. -/
theorem chess_C3_w :
    (apply_move [] sqE2 sqE4 whiteC).accepted = false ∧
    (apply_move [] sqE2 sqE4 whiteC).board = [] ∧
    (apply_move [] sqE2 sqE4 whiteC).new_turn = whiteC := by
  refine ⟨by decide, ?_, ?_⟩
  · exact (chess_C3 [] sqE2 sqE4 whiteC (by decide)).1
  · exact (chess_C3 [] sqE2 sqE4 whiteC (by decide)).2.1

/-- Claim C4: accepted moves flip the turn to the opposite color; rejected
moves leave the turn unchanged. -/
theorem chess_C4 : ∀ (b : Bd) (s d t : String),
    ((apply_move b s d t).accepted = true →
      (t = whiteC ∧ (apply_move b s d t).new_turn = blackC) ∨
      (t = blackC ∧ (apply_move b s d t).new_turn = whiteC)) ∧
    ((apply_move b s d t).accepted = false →
      (apply_move b s d t).new_turn = t) := by
  intro b s d t
  constructor
  · unfold apply_move
    split
    · intro hacc
      exact absurd hacc (by simp)
    · split
      · rename_i pk hlk
        split
        · intro hacc
          exact absurd hacc (by simp)
        · rename_i hturn
          split
          · intro _
            rw [bne_iff_ne] at hturn
            push_neg at hturn
            obtain ⟨pt0, pc0⟩ := pk
            rcases lookup_color _ _ _ hlk with hw | hb
            · have htw : t = whiteC := hturn.symm.trans hw
              refine Or.inl ⟨htw, ?_⟩
              show flipTurn t = blackC
              rw [htw]
              decide
            · have htb : t = blackC := hturn.symm.trans hb
              refine Or.inr ⟨htb, ?_⟩
              show flipTurn t = whiteC
              rw [htb]
              decide
          · intro hacc
            exact absurd hacc (by simp)
      · intro hacc
        exact absurd hacc (by simp)
  · unfold apply_move
    split
    · intro _
      rfl
    · split
      · split
        · intro _
          rfl
        · split
          · intro hacc
            exact absurd hacc (by simp)
          · intro _
            rfl
      · intro _
        rfl

/-- Closed witness for C4: an accepted pawn move by white makes it the turn
of black, and a rejected move keeps the turn. -/
theorem chess_C4_w :
    ((apply_move [(sqE2, wPawnE)] sqE2 sqE3 whiteC).accepted = true ∧
      ((whiteC = whiteC ∧
        (apply_move [(sqE2, wPawnE)] sqE2 sqE3 whiteC).new_turn = blackC) ∨
       (whiteC = blackC ∧
        (apply_move [(sqE2, wPawnE)] sqE2 sqE3 whiteC).new_turn = whiteC))) ∧
    ((apply_move [] sqE2 sqE3 whiteC).accepted = false ∧
      (apply_move [] sqE2 sqE3 whiteC).new_turn = whiteC) := by
  constructor
  · exact ⟨by decide,
      (chess_C4 [(sqE2, wPawnE)] sqE2 sqE3 whiteC).1 (by decide)⟩
  · exact ⟨by decide, (chess_C4 [] sqE2 sqE3 whiteC).2 (by decide)⟩

/-- Claim C2 (the code diverges here): newGame from views.py produces the
canonical starting layout, but Board.reset_game from models.py produces the
color-mirrored layout — its dict literal assigns the black back rank to rank
1 and the white back rank to rank 8, contradicting its own docstring; on a1
it places the black rook entity. -/
theorem chess_C2 : ∀ b : Bd,
    specCanonicalLayout (newGame b) = true ∧
    specCanonicalLayout (reset_game b) = false ∧
    get_piece_at (reset_game b) sqA1 = bRookE ∧
    lookupPiece bRookE = some (rookK, blackC) ∧
    get_piece_at (newGame b) sqA1 = wRookE ∧
    lookupPiece wRookE = some (rookK, whiteC) := by
  intro b
  refine ⟨?_, ?_, ?_, ?_, ?_, ?_⟩
  · show specCanonicalLayout newGameBoard = true
    decide
  · show specCanonicalLayout resetGameBoard = false
    decide
  · show get_piece_at resetGameBoard sqA1 = bRookE
    decide
  · decide
  · show get_piece_at newGameBoard sqA1 = wRookE
    decide
  · decide

/-- Claim C10: a null move from an occupied square on the owner's turn is
rejected with the own-piece-capture message; board and turn are unchanged. -/
theorem chess_C10 : ∀ (b : Bd) (s t pt : String) (sr sc : Nat),
    square_to_indices s = Except.ok (sr, sc) →
    lookupPiece (get_piece_at b s) = some (pt, t) →
    apply_move b s s t = ⟨false, msgOwnPiece, b, t⟩ := by
  intro b s t pt sr sc hs hp
  have hblankSrc := lookup_not_blankSrc _ _ _ hp
  have hblank := lookup_not_blank _ _ _ hp
  obtain ⟨rec, hf, hrec⟩ := find_of_lookup b s pt t hp
  have hsc : sameColorDest b s t = true := by
    unfold sameColorDest
    simp [hp, hblank]
  have hval : validate_move b s s (get_piece_at b s) = (false, msgOwnPiece) := by
    unfold validate_move
    rw [hs, hp]
    simp only [hsc]
    rfl
  have hmp : move_piece b s s = (false, msgOwnPiece, b) := by
    unfold move_piece
    rw [hf]
    simp [hrec, hblankSrc, hval]
  unfold apply_move
  rw [hblankSrc, hp]
  simp [hmp]

/-- Closed witness for C10: a white king asked to move onto its own square
is rejected with the own-piece message and nothing changes. -/
theorem chess_C10_w :
    apply_move [(sqE2, wKingE)] sqE2 sqE2 whiteC =
      ⟨false, msgOwnPiece, [(sqE2, wKingE)], whiteC⟩ :=
  chess_C10 [(sqE2, wKingE)] sqE2 whiteC kingK 6 4 (by decide) (by decide)

lemma move_piece_validate (b : Bd) (s d pt pc : String)
    (hlk : lookupPiece (get_piece_at b s) = some (pt, pc)) :
    (move_piece b s d).1 = (validate_move b s d (get_piece_at b s)).1 ∧
    ((validate_move b s d (get_piece_at b s)).1 = false →
      (move_piece b s d).2.1 =
        (validate_move b s d (get_piece_at b s)).2) ∧
    ((validate_move b s d (get_piece_at b s)).1 = false →
      (move_piece b s d).2.2 = b) := by
  obtain ⟨rec, hf, hrec⟩ := find_of_lookup b s pt pc hlk
  have hblankSrc := lookup_not_blankSrc _ _ _ hlk
  unfold move_piece
  split
  · rename_i heq
    rw [hf] at heq
    exact Option.noConfusion heq
  · rename_i record_src heq
    rw [hf] at heq
    injection heq with heqr
    subst heqr
    rw [hrec, hblankSrc]
    simp only [Bool.false_eq_true, if_false]
    cases hv : validate_move b s d (get_piece_at b s) with
    | mk vb vm =>
      cases vb
      · exact ⟨rfl, fun _ => rfl, fun _ => rfl⟩
      · exact ⟨rfl, fun hc => absurd hc (by simp), fun hc => absurd hc (by simp)⟩

lemma apply_move_move_piece (b : Bd) (s d t pt : String)
    (hlk : lookupPiece (get_piece_at b s) = some (pt, t)) :
    apply_move b s d t =
      ⟨(move_piece b s d).1, (move_piece b s d).2.1, (move_piece b s d).2.2,
        if (move_piece b s d).1 then flipTurn t else t⟩ := by
  have hblankSrc := lookup_not_blankSrc _ _ _ hlk
  unfold apply_move
  rw [hblankSrc, hlk]
  simp only [Bool.false_eq_true, if_false, bne_self_eq_false]
  cases hmv : move_piece b s d with
  | mk mb mrest =>
    obtain ⟨mm, mb2⟩ := mrest
    cases mb
    · rfl
    · rfl

/-- Claim C1: the rejection checks of the move pipeline fire in the order
empty-source, wrong-turn, own-piece-destination, then piece-shape/path
validation, and the rejection returned is the message of the first failing
check; in particular wrong-turn and own-piece rejections preempt shape
validation, and once the first three checks pass the shape validator alone
decides acceptance and the rejection message. -/
theorem chess_C1 : ∀ (b : Bd) (s d t : String),
    (isBlankSrcVal (get_piece_at b s) = true →
      apply_move b s d t = ⟨false, msgNoPieceSquare, b, t⟩) ∧
    (∀ pt pc, lookupPiece (get_piece_at b s) = some (pt, pc) → pc ≠ t →
      apply_move b s d t = ⟨false, wrongTurnMsg t, b, t⟩) ∧
    (∀ pt sr sc dr dc, lookupPiece (get_piece_at b s) = some (pt, t) →
      square_to_indices s = Except.ok (sr, sc) →
      square_to_indices d = Except.ok (dr, dc) →
      sameColorDest b d t = true →
      apply_move b s d t = ⟨false, msgOwnPiece, b, t⟩) ∧
    (∀ pt, lookupPiece (get_piece_at b s) = some (pt, t) →
      (apply_move b s d t).accepted =
          (validate_move b s d (get_piece_at b s)).1 ∧
      ((validate_move b s d (get_piece_at b s)).1 = false →
        (apply_move b s d t).message =
          (validate_move b s d (get_piece_at b s)).2)) := by
  intro b s d t
  refine ⟨?_, ?_, ?_, ?_⟩
  · intro h
    unfold apply_move
    rw [h]
    simp
  · intro pt pc hlk hne
    have hb : ((pt, pc).2 != t) = true := bne_iff_ne.mpr hne
    have hblankSrc := lookup_not_blankSrc _ _ _ hlk
    unfold apply_move
    rw [hblankSrc, hlk]
    simp only [Bool.false_eq_true, if_false]
    rw [hb]
    simp
  · intro pt sr sc dr dc hlk hs hd hsc
    have hblankSrc := lookup_not_blankSrc _ _ _ hlk
    obtain ⟨rec, hf, hrec⟩ := find_of_lookup b s pt t hlk
    have hval : validate_move b s d (get_piece_at b s) =
        (false, msgOwnPiece) := by
      unfold validate_move
      rw [hs, hd, hlk]
      simp only [hsc]
      rfl
    have hmp : move_piece b s d = (false, msgOwnPiece, b) := by
      unfold move_piece
      rw [hf]
      dsimp only
      rw [hrec, hblankSrc]
      simp [hval]
    rw [apply_move_move_piece b s d t pt hlk, hmp]
    rfl
  · intro pt hlk
    obtain ⟨hacc, hmsg, _⟩ := move_piece_validate b s d pt t hlk
    rw [apply_move_move_piece b s d t pt hlk]
    exact ⟨hacc, fun hvf => hmsg hvf⟩

/-- Closed witness for C1: instances of each of the four ordering conjuncts
on concrete boards. -/
theorem chess_C1_w :
    (apply_move [] sqE2 sqE4 whiteC = ⟨false, msgNoPieceSquare, [], whiteC⟩) ∧
    (apply_move [(sqE2, bPawnE)] sqE2 sqA8 whiteC =
      ⟨false, wrongTurnMsg whiteC, [(sqE2, bPawnE)], whiteC⟩) ∧
    (apply_move [(sqE2, wPawnE), (sqE3, wRookE)] sqE2 sqE3 whiteC =
      ⟨false, msgOwnPiece, [(sqE2, wPawnE), (sqE3, wRookE)], whiteC⟩) ∧
    ((apply_move [(sqE2, wPawnE)] sqE2 sqE5 whiteC).accepted =
        (validate_move [(sqE2, wPawnE)] sqE2 sqE5
          (get_piece_at [(sqE2, wPawnE)] sqE2)).1) := by
  refine ⟨?_, ?_, ?_, ?_⟩
  · exact (chess_C1 [] sqE2 sqE4 whiteC).1 (by decide)
  · exact (chess_C1 [(sqE2, bPawnE)] sqE2 sqA8 whiteC).2.1 pawnK blackC
      (by decide) (by decide)
  · exact (chess_C1 [(sqE2, wPawnE), (sqE3, wRookE)] sqE2 sqE3 whiteC).2.2.1
      pawnK 6 4 5 4 (by decide) (by decide) (by decide) (by decide)
  · exact ((chess_C1 [(sqE2, wPawnE)] sqE2 sqE5 whiteC).2.2.2 pawnK
      (by decide)).1

/-! Equational forms of validate_move, is_path_clear and the per-piece
branches of the shape dispatch, for use in the shape-rule theorems. -/

lemma validate_move_eq (b : Bd) (s d : String) (sr sc dr dc : Nat)
    (pe pt pc : String) (hs : square_to_indices s = Except.ok (sr, sc))
    (hd : square_to_indices d = Except.ok (dr, dc))
    (hpe : lookupPiece pe = some (pt, pc)) :
    validate_move b s d pe =
      (if sameColorDest b d pc then (false, msgOwnPiece)
       else shapeDispatch b s d sr sc dr dc pt pc) := by
  unfold validate_move
  rw [hs, hd, hpe]

lemma is_path_clear_eq (b : Bd) (s d : String) (sr sc dr dc : Nat)
    (hs : square_to_indices s = Except.ok (sr, sc))
    (hd : square_to_indices d = Except.ok (dr, dc)) :
    is_path_clear b s d =
      (if max ((dr : Int) - sr).natAbs ((dc : Int) - sc).natAbs ≤ 1 then
        true
       else
        (List.range
            (max ((dr : Int) - sr).natAbs ((dc : Int) - sc).natAbs - 1)).all
          (fun k =>
            isBlankVal (get_piece_at b
              (idxSquare
                ((sr : Int) + ((k : Int) + 1) *
                  Int.fdiv ((dr : Int) - sr)
                    ((max ((dr : Int) - sr).natAbs
                      ((dc : Int) - sc).natAbs : Nat) : Int))
                ((sc : Int) + ((k : Int) + 1) *
                  Int.fdiv ((dc : Int) - sc)
                    ((max ((dr : Int) - sr).natAbs
                      ((dc : Int) - sc).natAbs : Nat) : Int)))))) := by
  unfold is_path_clear
  rw [hs, hd]

lemma shapeDispatch_pawn_white (b : Bd) (s d : String) (sr sc dr dc : Nat) :
    shapeDispatch b s d sr sc dr dc pawnK whiteC =
      (if ((dc : Int) - sc == 0) && ((dr : Int) - sr == -1) then
        (if isBlankVal (get_piece_at b d) then (true, emptyMsg)
         else (false, msgPawnFwd))
       else if ((dc : Int) - sc == 0) && ((dr : Int) - sr == -2) &&
          (sr == 6) then
        (if isBlankVal (get_piece_at b
              (idxSquare ((sr : Int) + -1) (sc : Int))) &&
            isBlankVal (get_piece_at b d) then (true, emptyMsg)
         else (false, msgPawnDbl))
       else if (((dc : Int) - sc).natAbs == 1) &&
          ((dr : Int) - sr == -1) then
        (if !(isBlankVal (get_piece_at b d)) then (true, emptyMsg)
         else (false, msgPawnDiag))
       else (false, msgIllegalPawn)) := rfl

lemma shapeDispatch_pawn_black (b : Bd) (s d : String) (sr sc dr dc : Nat) :
    shapeDispatch b s d sr sc dr dc pawnK blackC =
      (if ((dc : Int) - sc == 0) && ((dr : Int) - sr == 1) then
        (if isBlankVal (get_piece_at b d) then (true, emptyMsg)
         else (false, msgPawnFwd))
       else if ((dc : Int) - sc == 0) && ((dr : Int) - sr == 2) &&
          (sr == 1) then
        (if isBlankVal (get_piece_at b
              (idxSquare ((sr : Int) + 1) (sc : Int))) &&
            isBlankVal (get_piece_at b d) then (true, emptyMsg)
         else (false, msgPawnDbl))
       else if (((dc : Int) - sc).natAbs == 1) &&
          ((dr : Int) - sr == 1) then
        (if !(isBlankVal (get_piece_at b d)) then (true, emptyMsg)
         else (false, msgPawnDiag))
       else (false, msgIllegalPawn)) := rfl

lemma shapeDispatch_knight (b : Bd) (s d : String) (sr sc dr dc : Nat)
    (pc : String) :
    shapeDispatch b s d sr sc dr dc knightK pc =
      (if (((dr : Int) - sr).natAbs == 1 &&
            ((dc : Int) - sc).natAbs == 2) ||
          (((dr : Int) - sr).natAbs == 2 &&
            ((dc : Int) - sc).natAbs == 1) then (true, emptyMsg)
       else (false, msgIllegalKnight)) := rfl

lemma shapeDispatch_bishop (b : Bd) (s d : String) (sr sc dr dc : Nat)
    (pc : String) :
    shapeDispatch b s d sr sc dr dc bishopK pc =
      (if ((dr : Int) - sr).natAbs == ((dc : Int) - sc).natAbs &&
          is_path_clear b s d then (true, emptyMsg)
       else (false, msgIllegalBishop)) := rfl

lemma shapeDispatch_rook (b : Bd) (s d : String) (sr sc dr dc : Nat)
    (pc : String) :
    shapeDispatch b s d sr sc dr dc rookK pc =
      (if (((dr : Int) - sr == 0) || ((dc : Int) - sc == 0)) &&
          is_path_clear b s d then (true, emptyMsg)
       else (false, msgIllegalRook)) := rfl

lemma shapeDispatch_queen (b : Bd) (s d : String) (sr sc dr dc : Nat)
    (pc : String) :
    shapeDispatch b s d sr sc dr dc queenK pc =
      (if (((dr : Int) - sr).natAbs == ((dc : Int) - sc).natAbs ||
            ((dr : Int) - sr == 0) || ((dc : Int) - sc == 0)) &&
          is_path_clear b s d then (true, emptyMsg)
       else (false, msgIllegalQueen)) := rfl

lemma shapeDispatch_king (b : Bd) (s d : String) (sr sc dr dc : Nat)
    (pc : String) :
    shapeDispatch b s d sr sc dr dc kingK pc =
      (if max ((dr : Int) - sr).natAbs ((dc : Int) - sc).natAbs == 1 then
        (true, emptyMsg)
       else (false, msgIllegalKing)) := rfl

/-- Claim C6: for axis- or diagonal-aligned squares, is_path_clear holds iff
every strictly intermediate square (stepping by the floor-divided deltas) is
empty; with at most one step the path is trivially clear; and a sliding
piece (bishop, rook, queen) whose path is blocked is always rejected by
validate_move, regardless of the destination occupancy. -/
theorem chess_C6 : ∀ (b : Bd) (s d : String) (sr sc dr dc : Nat),
    square_to_indices s = Except.ok (sr, sc) →
    square_to_indices d = Except.ok (dr, dc) →
    ((((dr : Int) - sr = 0) ∨ ((dc : Int) - sc = 0) ∨
        ((dr : Int) - sr).natAbs = ((dc : Int) - sc).natAbs) →
      (is_path_clear b s d = true ↔
        ∀ k : Nat, 1 ≤ k →
          k < max ((dr : Int) - sr).natAbs ((dc : Int) - sc).natAbs →
          isBlankVal (get_piece_at b
            (idxSquare
              ((sr : Int) + (k : Int) *
                Int.fdiv ((dr : Int) - sr)
                  ((max ((dr : Int) - sr).natAbs
                    ((dc : Int) - sc).natAbs : Nat) : Int))
              ((sc : Int) + (k : Int) *
                Int.fdiv ((dc : Int) - sc)
                  ((max ((dr : Int) - sr).natAbs
                    ((dc : Int) - sc).natAbs : Nat) : Int)))) = true)) ∧
    (max ((dr : Int) - sr).natAbs ((dc : Int) - sc).natAbs ≤ 1 →
      is_path_clear b s d = true) ∧
    (∀ v, (v = wBishopE ∨ v = wRookE ∨ v = wQueenE ∨ v = bBishopE ∨
        v = bRookE ∨ v = bQueenE) →
      is_path_clear b s d = false →
      (validate_move b s d v).1 = false) := by
  intro b s d sr sc dr dc hs hd
  refine ⟨?_, ?_, ?_⟩
  · intro _
    rw [is_path_clear_eq b s d sr sc dr dc hs hd]
    by_cases hn : max ((dr : Int) - sr).natAbs ((dc : Int) - sc).natAbs ≤ 1
    · rw [if_pos hn]
      constructor
      · intro _ k h1 h2
        exact absurd h2 (by omega)
      · intro _
        rfl
    · rw [if_neg hn]
      rw [List.all_eq_true]
      constructor
      · intro hall k h1 h2
        have hm : k - 1 ∈ List.range
            (max ((dr : Int) - sr).natAbs ((dc : Int) - sc).natAbs - 1) :=
          List.mem_range.mpr (by omega)
        have hk := hall _ hm
        have hc : ((k - 1 : Nat) : Int) + 1 = (k : Int) := by omega
        rw [hc] at hk
        exact hk
      · intro hpt x hx
        have hxlt := List.mem_range.mp hx
        have hk := hpt (x + 1) (by omega) (by omega)
        have hc : ((x + 1 : Nat) : Int) = (x : Int) + 1 := by omega
        rw [hc] at hk
        exact hk
  · intro h
    rw [is_path_clear_eq b s d sr sc dr dc hs hd]
    rw [if_pos h]
  · intro v hv hpf
    rcases hv with rfl|rfl|rfl|rfl|rfl|rfl
    · rw [validate_move_eq b s d sr sc dr dc wBishopE bishopK whiteC
        hs hd (by rfl)]
      split
      · rfl
      · rw [shapeDispatch_bishop]
        simp [hpf]
    · rw [validate_move_eq b s d sr sc dr dc wRookE rookK whiteC
        hs hd (by rfl)]
      split
      · rfl
      · rw [shapeDispatch_rook]
        simp [hpf]
    · rw [validate_move_eq b s d sr sc dr dc wQueenE queenK whiteC
        hs hd (by rfl)]
      split
      · rfl
      · rw [shapeDispatch_queen]
        simp [hpf]
    · rw [validate_move_eq b s d sr sc dr dc bBishopE bishopK blackC
        hs hd (by rfl)]
      split
      · rfl
      · rw [shapeDispatch_bishop]
        simp [hpf]
    · rw [validate_move_eq b s d sr sc dr dc bRookE rookK blackC
        hs hd (by rfl)]
      split
      · rfl
      · rw [shapeDispatch_rook]
        simp [hpf]
    · rw [validate_move_eq b s d sr sc dr dc bQueenE queenK blackC
        hs hd (by rfl)]
      split
      · rfl
      · rw [shapeDispatch_queen]
        simp [hpf]

/-- Closed witness for C6: on the standard starting board the rook path
a1 to a8 is blocked (white pawn on a2), so the white rook move a1 to a8 is
rejected by the validator, and the one-step path a1 to a2 is trivially
clear. -/
theorem chess_C6_w :
    is_path_clear newGameBoard sqA1 sqA8 = false ∧
    (validate_move newGameBoard sqA1 sqA8 wRookE).1 = false ∧
    is_path_clear newGameBoard sqA1 sqA2 = true := by
  refine ⟨by decide, ?_, ?_⟩
  · exact (chess_C6 newGameBoard sqA1 sqA8 7 0 0 0 (by decide)
      (by decide)).2.2 wRookE (Or.inr (Or.inl rfl)) (by decide)
  · exact (chess_C6 newGameBoard sqA1 sqA2 7 0 6 0 (by decide)
      (by decide)).2.1 (by decide)

/-- Claim C5: the pawn rule.  A white pawn moves with direction −1 from
starting row 6, a black pawn with direction +1 from starting row 1; the
validator accepts exactly a single forward step onto an empty square, a
double forward step from the starting row with empty intermediate and
destination squares, or a one-file diagonal forward step onto an occupied
square; every other pawn delta is rejected (hypotheses: both squares parse
and the destination does not hold a same-color piece, the case already
rejected by the earlier own-piece check). -/
theorem chess_C5 : ∀ (b : Bd) (s d : String) (sr sc dr dc : Nat)
    (pe pcol : String) (dir : Int) (strt : Nat),
    square_to_indices s = Except.ok (sr, sc) →
    square_to_indices d = Except.ok (dr, dc) →
    ((pe = wPawnE ∧ pcol = whiteC ∧ dir = -1 ∧ strt = 6) ∨
     (pe = bPawnE ∧ pcol = blackC ∧ dir = 1 ∧ strt = 1)) →
    sameColorDest b d pcol = false →
    ((validate_move b s d pe).1 = true ↔
      (((dc : Int) - sc = 0 ∧ (dr : Int) - sr = dir ∧
         isBlankVal (get_piece_at b d) = true) ∨
       ((dc : Int) - sc = 0 ∧ (dr : Int) - sr = 2 * dir ∧ sr = strt ∧
         isBlankVal (get_piece_at b
           (idxSquare ((sr : Int) + dir) (sc : Int))) = true ∧
         isBlankVal (get_piece_at b d) = true) ∨
       (((dc : Int) - sc).natAbs = 1 ∧ (dr : Int) - sr = dir ∧
         isBlankVal (get_piece_at b d) = false))) := by
  intro b s d sr sc dr dc pe pcol dir strt hs hd hcase hnc
  rcases hcase with ⟨rfl, rfl, rfl, rfl⟩ | ⟨rfl, rfl, rfl, rfl⟩
  · rw [validate_move_eq b s d sr sc dr dc wPawnE pawnK whiteC hs hd
      (by rfl)]
    rw [hnc]
    simp only [Bool.false_eq_true, if_false]
    rw [shapeDispatch_pawn_white]
    constructor
    · intro hv
      split_ifs at hv with h1 hb1 h2 hb2 h3 hb3
      all_goals first
        | (simp only [Bool.and_eq_true, beq_iff_eq] at h2
           simp only [Bool.and_eq_true] at hb2
           exact Or.inr (Or.inl ⟨h2.1.1, by omega, h2.2, hb2.1, hb2.2⟩))
        | (simp only [Bool.and_eq_true, beq_iff_eq] at h3
           simp only [Bool.not_eq_true'] at hb3
           exact Or.inr (Or.inr ⟨h3.1, h3.2, hb3⟩))
        | (simp only [Bool.and_eq_true, beq_iff_eq] at h1
           exact Or.inl ⟨h1.1, h1.2, hb1⟩)
    · intro hr
      rcases hr with ⟨hc, hdr, he⟩ | ⟨hc, hdr, hst, hi, he⟩ |
        ⟨hc, hdr, he⟩
      · rw [if_pos (by rw [hc, hdr]; rfl)]
        rw [if_pos he]
      · rw [if_neg (by rw [hc, hdr]; decide)]
        rw [if_pos (by rw [hc, hdr, hst]; decide)]
        rw [if_pos (by rw [hi, he]; rfl)]
      · rw [if_neg (by
          simp only [Bool.and_eq_true, beq_iff_eq]
          rintro ⟨h0, _⟩
          omega)]
        rw [if_neg (by
          simp only [Bool.and_eq_true, beq_iff_eq]
          rintro ⟨⟨h0, _⟩, _⟩
          omega)]
        rw [if_pos (by
          simp only [Bool.and_eq_true, beq_iff_eq]
          exact ⟨hc, hdr⟩)]
        rw [if_pos (by rw [he]; rfl)]
  · rw [validate_move_eq b s d sr sc dr dc bPawnE pawnK blackC hs hd
      (by rfl)]
    rw [hnc]
    simp only [Bool.false_eq_true, if_false]
    rw [shapeDispatch_pawn_black]
    constructor
    · intro hv
      split_ifs at hv with h1 hb1 h2 hb2 h3 hb3
      all_goals first
        | (simp only [Bool.and_eq_true, beq_iff_eq] at h2
           simp only [Bool.and_eq_true] at hb2
           exact Or.inr (Or.inl ⟨h2.1.1, by omega, h2.2, hb2.1, hb2.2⟩))
        | (simp only [Bool.and_eq_true, beq_iff_eq] at h3
           simp only [Bool.not_eq_true'] at hb3
           exact Or.inr (Or.inr ⟨h3.1, h3.2, hb3⟩))
        | (simp only [Bool.and_eq_true, beq_iff_eq] at h1
           exact Or.inl ⟨h1.1, h1.2, hb1⟩)
    · intro hr
      rcases hr with ⟨hc, hdr, he⟩ | ⟨hc, hdr, hst, hi, he⟩ |
        ⟨hc, hdr, he⟩
      · rw [if_pos (by rw [hc, hdr]; rfl)]
        rw [if_pos he]
      · rw [if_neg (by rw [hc, hdr]; decide)]
        rw [if_pos (by rw [hc, hdr, hst]; decide)]
        rw [if_pos (by rw [hi, he]; rfl)]
      · rw [if_neg (by
          simp only [Bool.and_eq_true, beq_iff_eq]
          rintro ⟨h0, _⟩
          omega)]
        rw [if_neg (by
          simp only [Bool.and_eq_true, beq_iff_eq]
          rintro ⟨⟨h0, _⟩, _⟩
          omega)]
        rw [if_pos (by
          simp only [Bool.and_eq_true, beq_iff_eq]
          exact ⟨hc, hdr⟩)]
        rw [if_pos (by rw [he]; rfl)]

/-- Closed witness for C5: on a board with a lone white pawn on e2, the
double forward move e2 to e4 satisfies the pawn rule, and the same check
shows a pawn on e3 (not the starting row) may not move to e5. -/
theorem chess_C5_w :
    (validate_move [(sqE2, wPawnE)] sqE2 sqE4 wPawnE).1 = true ∧
    (validate_move [(sqE3, wPawnE)] sqE3 sqE5 wPawnE).1 = false := by
  constructor
  · exact (chess_C5 [(sqE2, wPawnE)] sqE2 sqE4 6 4 4 4 wPawnE whiteC
      (-1) 6 (by decide) (by decide) (Or.inl ⟨rfl, rfl, rfl, rfl⟩)
      (by decide)).2
      (Or.inr (Or.inl ⟨by decide, by decide, by decide, by decide,
        by decide⟩))
  · have hiff := chess_C5 [(sqE3, wPawnE)] sqE3 sqE5 5 4 3 4 wPawnE whiteC
      (-1) 6 (by decide) (by decide) (Or.inl ⟨rfl, rfl, rfl, rfl⟩)
      (by decide)
    by_contra hcon
    rw [Bool.not_eq_false] at hcon
    rcases hiff.1 hcon with ⟨_, h2, _⟩ | ⟨_, _, h3, _, _⟩ | ⟨h1, _, _⟩
    · revert h2
      decide
    · revert h3
      decide
    · revert h1
      decide

/-- Counterexample to claim C7 as stated: a white rook on a1 moving to a2,
where a2 holds a white pawn.  Exactly one of d_row, d_col is zero (d_row is
−1, d_col is 0) and the one-step path is clear, yet the move is rejected, so
"accepted iff exactly one delta zero and path clear" fails at this input. -/
theorem chess_C7_cex :
    square_to_indices sqA1 = Except.ok (7, 0) ∧
    square_to_indices sqA2 = Except.ok (6, 0) ∧
    lookupPiece (get_piece_at [(sqA1, wRookE), (sqA2, wPawnE)] sqA1) =
      some (rookK, whiteC) ∧
    (((6 : Int) - 7).natAbs = 1 ∧ ((0 : Int) - 0).natAbs = 0) ∧
    is_path_clear [(sqA1, wRookE), (sqA2, wPawnE)] sqA1 sqA2 = true ∧
    (apply_move [(sqA1, wRookE), (sqA2, wPawnE)] sqA1 sqA2
      whiteC).accepted = false ∧
    (apply_move [(sqA1, wRookE), (sqA2, wPawnE)] sqA1 sqA2
      whiteC).message = msgOwnPiece := by
  decide

/-- Round trip: a square built from in-range indices parses back to exactly
those indices. -/
lemma parse_idxSquare : ∀ r : Nat, r < 8 → ∀ c : Nat, c < 8 →
    square_to_indices (idxSquare (r : Int) (c : Int)) = Except.ok (r, c) := by
  decide

lemma sameColorDest_self (b : Bd) (s pt pc : String)
    (hlk : lookupPiece (get_piece_at b s) = some (pt, pc)) :
    sameColorDest b s pc = true := by
  unfold sameColorDest
  simp [hlk, lookup_not_blank _ _ _ hlk]

/-- Claim C7 amended: over canonical (code-generated lowercase) square
strings, a rook move on its owner's turn is accepted iff exactly one of
d_row and d_col is zero, the path between the squares is clear, and the
destination does not hold a piece of the rook's own color — the last
condition being the one the original claim omitted. -/
theorem chess_C7_amended : ∀ (b : Bd) (sr sc dr dc : Nat) (t : String),
    sr < 8 → sc < 8 → dr < 8 → dc < 8 →
    lookupPiece (get_piece_at b (idxSquare (sr : Int) (sc : Int))) =
      some (rookK, t) →
    ((apply_move b (idxSquare (sr : Int) (sc : Int))
        (idxSquare (dr : Int) (dc : Int)) t).accepted = true ↔
      ((((dr : Int) - sr = 0 ∧ (dc : Int) - sc ≠ 0) ∨
        ((dr : Int) - sr ≠ 0 ∧ (dc : Int) - sc = 0)) ∧
        is_path_clear b (idxSquare (sr : Int) (sc : Int))
          (idxSquare (dr : Int) (dc : Int)) = true ∧
        sameColorDest b (idxSquare (dr : Int) (dc : Int)) t = false)) := by
  intro b sr sc dr dc t h1 h2 h3 h4 hlk
  have hps := parse_idxSquare sr h1 sc h2
  have hpd := parse_idxSquare dr h3 dc h4
  have heq : (apply_move b (idxSquare (sr : Int) (sc : Int))
      (idxSquare (dr : Int) (dc : Int)) t).accepted =
      (validate_move b (idxSquare (sr : Int) (sc : Int))
        (idxSquare (dr : Int) (dc : Int))
        (get_piece_at b (idxSquare (sr : Int) (sc : Int)))).1 := by
    rw [apply_move_move_piece b _ _ t rookK hlk]
    exact (move_piece_validate b _ _ rookK t hlk).1
  rw [heq, validate_move_eq b _ _ sr sc dr dc _ rookK t hps hpd hlk,
    shapeDispatch_rook]
  by_cases hscd : sameColorDest b (idxSquare (dr : Int) (dc : Int)) t = true
  · rw [if_pos hscd]
    constructor
    · intro hcon
      exact Bool.noConfusion hcon
    · rintro ⟨_, _, hf⟩
      rw [hscd] at hf
      exact Bool.noConfusion hf
  · have hscd' : sameColorDest b (idxSquare (dr : Int) (dc : Int)) t =
        false := by
      revert hscd
      cases sameColorDest b (idxSquare (dr : Int) (dc : Int)) t <;> simp
    rw [if_neg hscd]
    by_cases hcond : ((((dr : Int) - sr == 0) || ((dc : Int) - sc == 0)) &&
        is_path_clear b (idxSquare (sr : Int) (sc : Int))
          (idxSquare (dr : Int) (dc : Int))) = true
    · rw [if_pos hcond]
      simp only [Bool.and_eq_true, Bool.or_eq_true, beq_iff_eq] at hcond
      constructor
      · intro _
        refine ⟨?_, hcond.2, hscd'⟩
        have hnboth : ¬((dr : Int) - sr = 0 ∧ (dc : Int) - sc = 0) := by
          rintro ⟨hzr, hzc⟩
          have hrr : dr = sr := by omega
          have hcc : dc = sc := by omega
          subst hrr
          subst hcc
          have hsct := sameColorDest_self b _ rookK t hlk
          rw [hsct] at hscd'
          exact Bool.noConfusion hscd'
        rcases hcond.1 with hz | hz
        · exact Or.inl ⟨hz, fun hc => hnboth ⟨hz, hc⟩⟩
        · by_cases hz2 : (dr : Int) - sr = 0
          · exact Or.inl ⟨hz2, fun hc => hnboth ⟨hz2, hc⟩⟩
          · exact Or.inr ⟨hz2, hz⟩
      · intro _
        rfl
    · rw [if_neg hcond]
      constructor
      · intro hcon
        exact Bool.noConfusion hcon
      · rintro ⟨hxor, hpath, _⟩
        exfalso
        apply hcond
        simp only [Bool.and_eq_true, Bool.or_eq_true, beq_iff_eq]
        refine ⟨?_, hpath⟩
        rcases hxor with ⟨hz, _⟩ | ⟨_, hz⟩
        · exact Or.inl hz
        · exact Or.inr hz

/-- Closed witness for the amended C7: a lone white rook on a1 may move to
the empty a8 (vertical move, clear path, empty destination). -/
theorem chess_C7_w :
    (apply_move [(sqA1, wRookE)] (idxSquare 7 0) (idxSquare 0 0)
      whiteC).accepted = true := by
  refine (chess_C7_amended [(sqA1, wRookE)] 7 0 0 0 whiteC (by decide)
    (by decide) (by decide) (by decide) (by decide)).2 ?_
  exact ⟨Or.inr ⟨by decide, by decide⟩, by decide, by decide⟩

lemma get_piece_eq_of_find (b : Bd) (q : String) (rec : String × String)
    (h : b.find? (fun r => r.1 == q) = some rec) :
    get_piece_at b q = rec.2 := by
  unfold get_piece_at
  rw [h]

lemma move_piece_accept_eq (b : Bd) (s d : String) (rec : String × String)
    (hf : b.find? (fun r => r.1 == s) = some rec)
    (hbs : isBlankSrcVal rec.2 = false)
    (hvt : (validate_move b s d rec.2).1 = true) :
    move_piece b s d = (true, msgMoveCompleted,
      (b.filter (fun r => !(r.1 == d))).map
          (fun r => if r.1 == s then (r.1, nbsp) else r) ++ [(d, rec.2)]) := by
  unfold move_piece
  split
  · rename_i heq
    rw [hf] at heq
    exact Option.noConfusion heq
  · rename_i record_src heq
    rw [hf] at heq
    injection heq with heqr
    subst heqr
    rw [hbs]
    simp only [Bool.false_eq_true, if_false]
    cases hv : validate_move b s d rec.2 with
    | mk vb vm =>
      rw [hv] at hvt
      cases vb
      · exact Bool.noConfusion hvt
      · rfl

lemma validate_true_no_own (b : Bd) (s d pe pt pc : String)
    (hpe : lookupPiece pe = some (pt, pc))
    (h : (validate_move b s d pe).1 = true) :
    sameColorDest b d pc = false := by
  cases hps : square_to_indices s with
  | error e =>
    exfalso
    unfold validate_move at h
    rw [hps] at h
    exact Bool.noConfusion h
  | ok rcs =>
    obtain ⟨sr, sc⟩ := rcs
    cases hpd : square_to_indices d with
    | error e =>
      exfalso
      unfold validate_move at h
      rw [hps, hpd] at h
      exact Bool.noConfusion h
    | ok rcd =>
      obtain ⟨dr, dc⟩ := rcd
      rw [validate_move_eq b s d sr sc dr dc pe pt pc hps hpd hpe] at h
      by_contra hc
      rw [Bool.not_eq_false] at hc
      rw [if_pos hc] at h
      exact Bool.noConfusion h

/-- Claim C8: an accepted move onto an occupied (hence enemy) destination
leaves the destination holding exactly the moved piece and the source
square empty. -/
theorem chess_C8 : ∀ (b : Bd) (s d t : String),
    (apply_move b s d t).accepted = true →
    isBlankVal (get_piece_at b d) = false →
    get_piece_at ((apply_move b s d t).board) d = get_piece_at b s ∧
    get_piece_at ((apply_move b s d t).board) s = nbsp := by
  intro b s d t hacc _hocc
  cases hlkc : lookupPiece (get_piece_at b s) with
  | none =>
    exfalso
    unfold apply_move at hacc
    rw [hlkc] at hacc
    split at hacc
    · exact Bool.noConfusion hacc
    · exact Bool.noConfusion hacc
  | some pk =>
    obtain ⟨pt, pc⟩ := pk
    by_cases hpct : pc = t
    case neg =>
      exfalso
      have hblankSrc := lookup_not_blankSrc _ _ _ hlkc
      have hbne : ((pt, pc).2 != t) = true := bne_iff_ne.mpr hpct
      unfold apply_move at hacc
      rw [hlkc, hblankSrc] at hacc
      simp only [Bool.false_eq_true, if_false] at hacc
      rw [hbne] at hacc
      rw [if_pos rfl] at hacc
      exact Bool.noConfusion hacc
    case pos =>
      rw [hpct] at hlkc
      have happ := apply_move_move_piece b s d t pt hlkc
      have hmpv := move_piece_validate b s d pt t hlkc
      have haccmp : (move_piece b s d).1 = true := by
        rw [happ] at hacc
        exact hacc
      have hvt : (validate_move b s d (get_piece_at b s)).1 = true := by
        rw [← hmpv.1]
        exact haccmp
      have hscd : sameColorDest b d t =
          false := validate_true_no_own b s d _ pt t hlkc hvt
      have hsd : s ≠ d := by
        intro hsde
        subst hsde
        have hsct := sameColorDest_self b s pt t hlkc
        rw [hsct] at hscd
        exact Bool.noConfusion hscd
      obtain ⟨rec, hf, hrec⟩ := find_of_lookup b s pt t hlkc
      have hbs : isBlankSrcVal rec.2 = false := by
        rw [hrec]
        exact lookup_not_blankSrc _ _ _ hlkc
      have hrs : rec.1 = s := by
        have hp := List.find?_some hf
        exact eq_of_beq hp
      have hvtrec : (validate_move b s d rec.2).1 = true := by
        rw [hrec]
        exact hvt
      have hmpe := move_piece_accept_eq b s d rec hf hbs hvtrec
      have hboard : (apply_move b s d t).board =
          (b.filter (fun r => !(r.1 == d))).map
            (fun r => if r.1 == s then (r.1, nbsp) else r) ++
            [(d, rec.2)] := by
        rw [happ, hmpe]
      rw [hboard]
      set B2 := (b.filter (fun r => !(r.1 == d))).map
        (fun r => if r.1 == s then (r.1, nbsp) else r) with hB2
      constructor
      · have hnone : B2.find? (fun r => r.1 == d) = none := by
          rw [List.find?_eq_none]
          intro x hx
          rw [hB2] at hx
          obtain ⟨y, hy, rfl⟩ := List.mem_map.mp hx
          have hyf := (List.mem_filter.mp hy).2
          rw [Bool.not_eq_true'] at hyf
          by_cases hys : (y.1 == s) = true
          · rw [if_pos hys]
            intro hc
            have hc' : (y.1 == d) = true := hc
            rw [hc'] at hyf
            exact Bool.noConfusion hyf
          · rw [if_neg hys]
            intro hc
            have hc' : (y.1 == d) = true := hc
            rw [hc'] at hyf
            exact Bool.noConfusion hyf
        have hfind1 : List.find? (fun r => r.1 == d) [(d, rec.2)] =
            some (d, rec.2) := by
          simp [List.find?]
        have hfd : (B2 ++ [(d, rec.2)]).find? (fun r => r.1 == d) =
            some (d, rec.2) := by
          rw [List.find?_append, hnone, hfind1]
          rfl
        rw [get_piece_eq_of_find _ _ _ hfd]
        exact hrec
      · have hrecb : rec ∈ b := List.mem_of_find?_eq_some hf
        have hsdne : (s == d) = false := by
          cases hb : s == d
          · rfl
          · exact absurd (eq_of_beq hb) hsd
        have hrecfil : rec ∈ b.filter (fun r => !(r.1 == d)) := by
          rw [List.mem_filter]
          refine ⟨hrecb, ?_⟩
          show (!(rec.1 == d)) = true
          rw [hrs, hsdne]
          rfl
        have hrss : (rec.1 == s) = true := by
          rw [hrs]
          exact beq_self_eq_true s
        have hfr : (if (rec.1 == s) = true then (rec.1, nbsp) else rec) =
            (rec.1, nbsp) := by
          rw [if_pos hrss]
        have hmem : ((rec.1, nbsp) : String × String) ∈ B2 := by
          rw [hB2, ← hfr]
          exact List.mem_map_of_mem _ hrecfil
        have hsome : (B2.find? (fun r => r.1 == s)).isSome := by
          rw [List.find?_isSome]
          refine ⟨(rec.1, nbsp), hmem, ?_⟩
          show (rec.1 == s) = true
          rw [hrs]
          exact beq_self_eq_true s
        obtain ⟨x, hxfind⟩ : ∃ x, B2.find? (fun r => r.1 == s) = some x :=
          Option.isSome_iff_exists.mp hsome
        have hxmem := List.mem_of_find?_eq_some hxfind
        have hxpred : (x.1 == s) = true := by
          have h0 := List.find?_some hxfind
          exact h0
        rw [hB2] at hxmem
        obtain ⟨y, hy, hyx⟩ := List.mem_map.mp hxmem
        have hx2 : x.2 = nbsp := by
          by_cases hys : (y.1 == s) = true
          · rw [if_pos hys] at hyx
            rw [← hyx]
          · rw [if_neg hys] at hyx
            rw [← hyx] at hxpred
            exact (hys hxpred).elim
        have hfs : (B2 ++ [(d, rec.2)]).find? (fun r => r.1 == s) =
            some x := by
          rw [List.find?_append, hxfind]
          rfl
        rw [get_piece_eq_of_find _ _ _ hfs]
        exact hx2

/-- Closed witness for C8: a white pawn on e2 capturing a black pawn on d3
leaves the white pawn on d3 and e2 empty. -/
theorem chess_C8_w :
    get_piece_at ((apply_move [(sqE2, wPawnE), (sqD3, bPawnE)] sqE2 sqD3
      whiteC).board) sqD3 =
      get_piece_at [(sqE2, wPawnE), (sqD3, bPawnE)] sqE2 ∧
    get_piece_at ((apply_move [(sqE2, wPawnE), (sqD3, bPawnE)] sqE2 sqD3
      whiteC).board) sqE2 = nbsp :=
  chess_C8 [(sqE2, wPawnE), (sqD3, bPawnE)] sqE2 sqD3 whiteC (by decide)
    (by decide)

/-- Counterexample to claim C9 as stated: on a board whose records use
lowercase locations (as both initializers create them), the move e2 to e3
is accepted, but the identical call with the source written "E2" is
rejected as an empty source — record lookup matches the literal string,
even though both spellings parse to the same indices. -/
theorem chess_C9_cex :
    (apply_move [(sqE2, wPawnE)] sqE2 sqE3 whiteC).accepted = true ∧
    (apply_move [(sqE2, wPawnE)] sqE2U sqE3 whiteC).accepted = false ∧
    (apply_move [(sqE2, wPawnE)] sqE2U sqE3 whiteC).message =
      msgNoPieceSquare ∧
    square_to_indices sqE2U = square_to_indices sqE2 := by
  decide

/-- Claim C9 amended: square parsing is case-insensitive in the file
character — an uppercase-file square parses to the same indices as its
lowercase form — but apply_move itself is not case-insensitive: the store
lookup matches the source string literally, so when no record carries
exactly that string the move is rejected as an empty source regardless of
what the lowercase square holds. -/
theorem chess_C9_amended :
    (∀ r : Nat, r < 8 → ∀ c : Nat, c < 8 →
      square_to_indices (idxSquareUpper (r : Int) (c : Int)) =
        square_to_indices (idxSquare (r : Int) (c : Int))) ∧
    (∀ (b : Bd) (s d t : String), b.find? (fun r => r.1 == s) = none →
      apply_move b s d t = ⟨false, msgNoPieceSquare, b, t⟩) := by
  constructor
  · decide
  · intro b s d t hf
    have hg : get_piece_at b s = nbsp := by
      unfold get_piece_at
      rw [hf]
    unfold apply_move
    rw [hg]
    rfl

/-- Closed witness for the amended C9: E2 parses like e2, and the uppercase
source on a lowercase-keyed board is rejected with the empty-source
message. -/
theorem chess_C9_w :
    square_to_indices (idxSquareUpper 6 4) =
      square_to_indices (idxSquare 6 4) ∧
    apply_move [(sqE2, wPawnE)] sqE2U sqE3 whiteC =
      ⟨false, msgNoPieceSquare, [(sqE2, wPawnE)], whiteC⟩ := by
  constructor
  · exact chess_C9_amended.1 6 (by decide) 4 (by decide)
  · exact chess_C9_amended.2 [(sqE2, wPawnE)] sqE2U sqE3 whiteC (by decide)

end Chess
